import Mathlib

/-!
Verification of the turn-context pipeline, conversation-reference utilities,
prompt recognizers and blob-storage key handling of the botbuilder-js
libraries.  Every definition is a shallow embedding of the corresponding
TypeScript/JavaScript source; JavaScript truthiness on optional strings is
modelled explicitly, promises are modelled as values (an `Option` result
stands for settles-with / never-settles where that distinction matters),
and in-place object mutation is modelled by an explicit heap where a claim
is about mutation.
-/

/-- JavaScript truthiness of an optional string: `undefined` and the empty
string are falsy, every other string is truthy. -/
def jsTruthy : Option String → Bool
  | none => false
  | some s => !(s == "")

/-- JavaScript `a || d` on an optional string `a` with a (total) default:
returns the string when it is truthy, the default otherwise. -/
def jsStringOr (v : Option String) (d : String) : String :=
  match v with
  | some s => if s == "" then d else s
  | none => d

/-- ChannelAccount of botframework-schema: the fields the core reads. -/
structure ChannelAccount where
  accountId : Option String
  accountName : Option String
deriving DecidableEq

/-- ConversationAccount of botframework-schema: the fields the core reads. -/
structure ConversationAccount where
  convId : Option String
  convName : Option String
deriving DecidableEq

/-- TokenResponse of botframework-schema (used by the OAuth prompt). -/
structure TokenResponse where
  connectionName : String
  token : String
deriving DecidableEq

/-- An activity attachment; the OAuth prompt only inspects `contentType`
and the sign-in card content placed there by the card factory. -/
structure Attachment where
  contentType : String
  cardConnectionName : Option String
  cardTitle : Option String
  cardText : Option String
deriving DecidableEq

/-- The slice of `Activity` (botframework-schema) that the verified code
reads or writes.  Optional fields model fields that may be absent. -/
structure Activity where
  type : Option String
  text : Option String
  value : Option TokenResponse
  id : Option String
  replyToId : Option String
  «from» : Option ChannelAccount
  recipient : Option ChannelAccount
  conversation : Option ConversationAccount
  channelId : Option String
  serviceUrl : Option String
  locale : Option String
  name : Option String
  attachments : Option (List Attachment)
deriving DecidableEq

/-- The activity with every field absent. -/
def emptyActivity : Activity :=
  ⟨none, none, none, none, none, none, none, none, none, none, none, none, none⟩

/-- ConversationReference (botframework-schema). -/
structure ConversationReference where
  activityId : Option String
  user : Option ChannelAccount
  bot : Option ChannelAccount
  conversation : Option ConversationAccount
  channelId : Option String
  serviceUrl : Option String
deriving DecidableEq

/-- ResourceResponse returned by the transport for each sent activity. -/
structure ResourceResponse where
  responseId : String
deriving DecidableEq

/-- Value-level model of `shallowCopy` (botbuilder-core internal helper):
at the level of field values a shallow copy is the identity; object
identity (the fact that a fresh object is allocated) is modelled
separately by the heap embedding below. -/
def shallowCopy {α : Type} (x : Option α) : Option α := x

/-- `TurnContext.getConversationReference` (turnContext.ts lines 370-379). -/
def getConversationReference (activity : Activity) : ConversationReference :=
  { activityId := activity.id
    user := shallowCopy activity.«from»
    bot := shallowCopy activity.recipient
    conversation := shallowCopy activity.conversation
    channelId := activity.channelId
    serviceUrl := activity.serviceUrl }

/-- `TurnContext.applyConversationReference` (turnContext.ts lines 398-412).
The source mutates `activity` in place and returns it; this value-level
embedding returns the updated value (the heap embedding below captures the
in-place aspect).  The `if` on `reference.activityId` is the JavaScript
truthiness test of the source. -/
def applyConversationReference (activity : Activity) (reference : ConversationReference)
    (isIncoming : Bool := false) : Activity :=
  let a := { activity with
    channelId := reference.channelId
    serviceUrl := reference.serviceUrl
    conversation := reference.conversation }
  if isIncoming then
    let b := { a with «from» := reference.user, recipient := reference.bot }
    if jsTruthy reference.activityId then { b with id := reference.activityId } else b
  else
    let b := { a with «from» := reference.bot, recipient := reference.user }
    if jsTruthy reference.activityId then { b with replyToId := reference.activityId } else b

/-- Observable events of one `sendActivities` call: the pre-`next` logic of
an interceptor, its post-`next` logic, and the transport call made by the
adapter. -/
inductive Ev where
  | pre (tag : Nat)
  | post (tag : Nat)
  | transport
deriving DecidableEq

/-- Execution model for the send pipeline: a computation reads the current
`responded` flag and produces the emitted event trace, the new flag and a
value.  Sequencing of asynchronous continuations in the source is a chain
of promise resolutions, which this sequential model reproduces. -/
abbrev SendM (α : Type) := Bool → List Ev × Bool × α

/-- A send interceptor registered with `onSendActivities`: it receives the
`next` continuation and yields a computation (turnContext.ts line 18). -/
structure SendHandler where
  run : (Unit → SendM (List ResourceResponse)) → SendM (List ResourceResponse)

/-- `TurnContext.emit` (turnContext.ts lines 343-357): `emitNext i` runs
handler `i` with continuation `emitNext (i+1)`, and runs `next` once the
handler list is exhausted. -/
def emit (handlers : List SendHandler) (next : Unit → SendM (List ResourceResponse)) :
    SendM (List ResourceResponse) :=
  match handlers with
  | [] => next ()
  | h :: rest => h.run (fun _ => emit rest next)

/-- `TurnContext.onSendActivities` (turnContext.ts lines 296-299): pushes
the handler at the end of the registration list. -/
def onSendActivities (handlers : List SendHandler) (handler : SendHandler) : List SendHandler :=
  handlers ++ [handler]

/-- Description of an interceptor of one of the two shapes the claims
speak about: one that runs pre-`next` logic, awaits `next()` and then runs
post-`next` logic, passing the result of `next` through; and one that
short-circuits, never invoking `next` and returning its own result. -/
inductive HandlerSpec where
  | proceed (tag : Nat)
  | shortCircuit (tag : Nat) (result : List ResourceResponse)
deriving DecidableEq

/-- Interpretation of a `HandlerSpec` as an actual send interceptor. -/
def HandlerSpec.interp : HandlerSpec → SendHandler
  | .proceed tag =>
    ⟨fun k s =>
      let t := k () s
      (Ev.pre tag :: t.1 ++ [Ev.post tag], t.2.1, t.2.2)⟩
  | .shortCircuit tag r => ⟨fun _ s => ([Ev.pre tag], s, r)⟩

/-- True when every interceptor in the list calls `next()`. -/
def allProceed (specs : List HandlerSpec) : Bool :=
  specs.all fun sp => match sp with
    | .proceed _ => true
    | .shortCircuit _ _ => false

/-- Errors of the turn-context state machine; `invalidStateTransition` is
the error thrown by the `responded` setter (turnContext.ts line 145). -/
inductive TCError where
  | invalidStateTransition
deriving DecidableEq

/-- Initial value of the `responded` flag: the constructor initializes
`_respondedRef` to `\x7b responded: false \x7d` (turnContext.ts line 65). -/
def initialResponded : Bool := false

/-- The `responded` setter (turnContext.ts lines 144-147): assigning
`false` throws and leaves the flag untouched; assigning `true` stores
`true`. -/
def respondedSet (value : Bool) (flag : Bool) : Except TCError Unit × Bool :=
  if value then (.ok (), true) else (.error .invalidStateTransition, flag)

/-- Outbound stamping performed by `sendActivities` (turnContext.ts lines
215-220): each activity is shallow-copied, stamped with the conversation
reference of the context activity, and given type `message` when its type
is not truthy. -/
def stampOutbound (ctxActivity : Activity) (activities : List Activity) : List Activity :=
  let ref := getConversationReference ctxActivity
  activities.map fun a =>
    let o := applyConversationReference a ref false
    if jsTruthy o.type then o else { o with type := some "message" }

/-- `TurnContext.sendActivities` (turnContext.ts lines 214-229): stamps the
activities, then emits them through the registered send interceptors with
a final continuation that performs the transport call and sets `responded`
through the setter. -/
def sendActivities (ctxActivity : Activity) (handlers : List SendHandler)
    (adapterSend : List Activity → List ResourceResponse) (activities : List Activity) :
    SendM (List ResourceResponse) :=
  let output := stampOutbound ctxActivity activities
  emit handlers fun _ s =>
    let responses := adapterSend output
    ([Ev.transport], (respondedSet true s).2, responses)

/-- Helper lemma: emitting through interpreted interceptors never lowers
the `responded` flag when the terminal continuation always sets it; if the
flag is `true` on entry it is `true` on exit. -/
theorem emit_interp_keeps_true (specs : List HandlerSpec)
    (next : Unit → SendM (List ResourceResponse))
    (hnext : ∀ s, (next () s).2.1 = true) :
    ∀ s, s = true → (emit (specs.map HandlerSpec.interp) next s).2.1 = true := by
  induction specs with
  | nil => intro s hs; exact hnext s
  | cons sp rest ih =>
    intro s hs
    cases sp with
    | proceed tag => exact ih s hs
    | shortCircuit tag r => exact hs

/-- Helper lemma: when every interceptor calls `next()`, emitting reaches
the terminal continuation, so the final `responded` flag is `true`
whatever it was on entry. -/
theorem emit_allProceed_true (specs : List HandlerSpec)
    (next : Unit → SendM (List ResourceResponse))
    (hnext : ∀ s, (next () s).2.1 = true)
    (hall : allProceed specs = true) :
    ∀ s, (emit (specs.map HandlerSpec.interp) next s).2.1 = true := by
  induction specs with
  | nil => intro s; exact hnext s
  | cons sp rest ih =>
    intro s
    cases sp with
    | proceed tag =>
      have hrest : allProceed rest = true := by
        simpa [allProceed, List.all] using hall
      exact ih hrest s
    | shortCircuit tag r =>
      simp [allProceed, List.all] at hall

/-- C1: registering interceptors H1 then H2 via `onSendActivities` and
calling `sendActivities` produces the observable effects in the order
H1-pre, H2-pre, transport call, H2-post, H1-post, with the transport
invoked on the stamped output and its responses becoming the result; and
an interceptor that does not invoke `next()` short-circuits: no later
interceptor and no transport call runs (the trace stops at its pre-logic,
the `responded` flag is untouched) and its own return value is the
operation's result, for every later handler whatsoever. -/
theorem sendActivities_interceptor_order (t1 t2 : Nat) (ctxAct : Activity)
    (adapterSend : List Activity → List ResourceResponse) (acts : List Activity)
    (s : Bool) (r : List ResourceResponse) (h2 : SendHandler) :
    sendActivities ctxAct
        (onSendActivities (onSendActivities [] (HandlerSpec.interp (.proceed t1)))
          (HandlerSpec.interp (.proceed t2)))
        adapterSend acts s
      = ([Ev.pre t1, Ev.pre t2, Ev.transport, Ev.post t2, Ev.post t1], true,
          adapterSend (stampOutbound ctxAct acts))
    ∧ sendActivities ctxAct
        (onSendActivities (onSendActivities [] (HandlerSpec.interp (.shortCircuit t1 r))) h2)
        adapterSend acts s
      = ([Ev.pre t1], s, r) := by
  exact ⟨rfl, rfl⟩

/-- C2: the `responded` flag is monotonic.  It starts `false`; a
`sendActivities` call whose interceptors all call `next()` (a successful
send reaching the transport) sets it to `true` from any starting value, so
in particular the first successful send flips it; once `true`, any further
`sendActivities` call leaves it `true`; assigning `false` through the
setter fails with the invalid-state-transition error and leaves the flag
unchanged; assigning `true` never fails. -/
theorem responded_monotonic :
    initialResponded = false
    ∧ (∀ flag, respondedSet false flag = (.error .invalidStateTransition, flag))
    ∧ (∀ flag, respondedSet true flag = (.ok (), true))
    ∧ (∀ (specs : List HandlerSpec) (ctxAct : Activity)
        (adapterSend : List Activity → List ResourceResponse) (acts : List Activity) (s : Bool),
        allProceed specs = true →
        (sendActivities ctxAct (specs.map HandlerSpec.interp) adapterSend acts s).2.1 = true)
    ∧ (∀ (specs : List HandlerSpec) (ctxAct : Activity)
        (adapterSend : List Activity → List ResourceResponse) (acts : List Activity),
        (sendActivities ctxAct (specs.map HandlerSpec.interp) adapterSend acts true).2.1 = true) := by
  refine ⟨rfl, fun flag => rfl, fun flag => rfl, ?_, ?_⟩
  · intro specs ctxAct adapterSend acts s hall
    exact emit_allProceed_true specs _ (fun s => rfl) hall s
  · intro specs ctxAct adapterSend acts
    exact emit_interp_keeps_true specs _ (fun s => rfl) true rfl

/-- C2 witness: the hypotheses of `responded_monotonic` discharged at a
concrete input: a send through a single interceptor that calls `next()`
sets the flag from `false` to `true`. -/
theorem responded_monotonic_check :
    (sendActivities emptyActivity ([HandlerSpec.proceed 0].map HandlerSpec.interp)
      (fun _ => []) [emptyActivity] false).2.1 = true := by
  exact responded_monotonic.2.2.2.1 [HandlerSpec.proceed 0] emptyActivity
    (fun _ => []) [emptyActivity] false rfl

/-- Concrete inbound activity used by the round-trip counterexample: its
sender and recipient are distinct accounts. -/
def cexActivity : Activity :=
  { emptyActivity with
    id := some "id1"
    «from» := some ⟨some "userA", none⟩
    recipient := some ⟨some "botB", none⟩
    conversation := some ⟨some "conv1", none⟩
    channelId := some "test"
    serviceUrl := some "https://example.org" }

/-- C3 counterexample: extracting a reference, applying it to a second
activity with the default (outgoing) direction and extracting again does
NOT return the same five fields: user and bot come back exchanged, because
the outgoing apply stores `reference.bot` into `from` and `reference.user`
into `recipient`. -/
theorem reference_roundtrip_cex :
    ¬ (let r1 := getConversationReference cexActivity
       let r2 := getConversationReference (applyConversationReference emptyActivity r1)
       r2.user = r1.user ∧ r2.bot = r1.bot ∧ r2.conversation = r1.conversation
         ∧ r2.channelId = r1.channelId ∧ r2.serviceUrl = r1.serviceUrl) := by
  decide

/-- C3 amended: under the default outgoing apply the round-trip returns
`conversation`, `channelId` and `serviceUrl` unchanged while `user` and
`bot` come back exchanged; with `isIncoming = true` all five reference
fields round-trip. -/
theorem reference_roundtrip_amended (a a2 : Activity) :
    (let r1 := getConversationReference a
     let r2 := getConversationReference (applyConversationReference a2 r1)
     r2.user = r1.bot ∧ r2.bot = r1.user ∧ r2.conversation = r1.conversation
       ∧ r2.channelId = r1.channelId ∧ r2.serviceUrl = r1.serviceUrl)
    ∧ (let r1 := getConversationReference a
       let r3 := getConversationReference (applyConversationReference a2 r1 true)
       r3.user = r1.user ∧ r3.bot = r1.bot ∧ r3.conversation = r1.conversation
         ∧ r3.channelId = r1.channelId ∧ r3.serviceUrl = r1.serviceUrl) := by
  constructor
  · by_cases h : jsTruthy a.id <;>
      simp [getConversationReference, applyConversationReference, shallowCopy, h]
  · by_cases h : jsTruthy a.id <;>
      simp [getConversationReference, applyConversationReference, shallowCopy, h]

/-- C4: directionality of `applyConversationReference`.  With
`isIncoming = false` (which is the default) `from` is set to the
reference's bot, `recipient` to its user, and `replyToId` to the
reference's activity id exactly when that id is truthy (otherwise the
field keeps the value the supplied activity already had, i.e. it is not
set); with `isIncoming = true` the roles invert and `id` receives the
activity id instead; in both directions `channelId`, `serviceUrl` and
`conversation` are copied from the reference. -/
theorem applyConversationReference_directionality (a : Activity) (r : ConversationReference) :
    (applyConversationReference a r = applyConversationReference a r false)
    ∧ (let o := applyConversationReference a r false
       o.«from» = r.bot ∧ o.recipient = r.user
         ∧ o.replyToId = (if jsTruthy r.activityId then r.activityId else a.replyToId)
         ∧ o.id = a.id
         ∧ o.channelId = r.channelId ∧ o.serviceUrl = r.serviceUrl
         ∧ o.conversation = r.conversation)
    ∧ (let i := applyConversationReference a r true
       i.«from» = r.user ∧ i.recipient = r.bot
         ∧ i.id = (if jsTruthy r.activityId then r.activityId else a.id)
         ∧ i.replyToId = a.replyToId
         ∧ i.channelId = r.channelId ∧ i.serviceUrl = r.serviceUrl
         ∧ i.conversation = r.conversation) := by
  refine ⟨rfl, ?_, ?_⟩
  · by_cases h : jsTruthy r.activityId <;> simp [applyConversationReference, h]
  · by_cases h : jsTruthy r.activityId <;> simp [applyConversationReference, h]

/-- Heap-allocated account-like object (ChannelAccount or
ConversationAccount): the mutation claims need object identity, so these
live in an addressed store. -/
structure AccountObj where
  objId : Option String
  objName : Option String
deriving DecidableEq

/-- Heap-allocated activity object: identity-valued fields hold addresses
into the account store, scalar fields hold their values. -/
structure ActivityObj where
  «from» : Option Nat
  recipient : Option Nat
  conversation : Option Nat
  id : Option String
  replyToId : Option String
  channelId : Option String
  serviceUrl : Option String
deriving DecidableEq

/-- The store: account objects and activity objects addressed by their
position; allocation appends. -/
structure Heap where
  accounts : List AccountObj
  activities : List ActivityObj
deriving DecidableEq

/-- Conversation reference whose identity fields are heap addresses. -/
structure RefObj where
  activityId : Option String
  user : Option Nat
  bot : Option Nat
  conversation : Option Nat
  channelId : Option String
  serviceUrl : Option String
deriving DecidableEq

/-- The activity object with every field absent (used only to totalize
lookups; the theorems carry validity hypotheses). -/
def emptyActivityObj : ActivityObj := ⟨none, none, none, none, none, none, none⟩

/-- The activity object stored at an address. -/
def heapActivityAt (h : Heap) (aAddr : Nat) : ActivityObj :=
  (h.activities[aAddr]?).getD emptyActivityObj

/-- Heap-level `shallowCopy` of an account-like field: on `undefined` it
returns `undefined`; on an object address it allocates a fresh object with
the same contents and returns the fresh address. -/
def shallowCopyH (h : Heap) (addr? : Option Nat) : Heap × Option Nat :=
  match addr? with
  | none => (h, none)
  | some addr =>
    match h.accounts[addr]? with
    | some obj => ({ h with accounts := h.accounts ++ [obj] }, some h.accounts.length)
    | none => (h, some addr)

/-- Heap-level `TurnContext.getConversationReference`: reads the activity
object and builds a reference whose `user`, `bot` and `conversation` are
shallow copies of the activity's fields. -/
def getConversationReferenceH (h : Heap) (aAddr : Nat) : Heap × RefObj :=
  let act := heapActivityAt h aAddr
  let c1 := shallowCopyH h act.«from»
  let c2 := shallowCopyH c1.1 act.recipient
  let c3 := shallowCopyH c2.1 act.conversation
  (c3.1, ⟨act.id, c1.2, c2.2, c3.2, act.channelId, act.serviceUrl⟩)

/-- Heap-level `TurnContext.applyConversationReference`: the source
assigns the reference's fields into the given activity object and returns
that same object, so the embedding overwrites the cell at `aAddr` and
returns `aAddr`. -/
def applyConversationReferenceH (h : Heap) (aAddr : Nat) (r : RefObj)
    (isIncoming : Bool := false) : Heap × Nat :=
  let act := heapActivityAt h aAddr
  let a1 := { act with
    channelId := r.channelId
    serviceUrl := r.serviceUrl
    conversation := r.conversation }
  let a2 :=
    if isIncoming then
      let b := { a1 with «from» := r.user, recipient := r.bot }
      if jsTruthy r.activityId then { b with id := r.activityId } else b
    else
      let b := { a1 with «from» := r.bot, recipient := r.user }
      if jsTruthy r.activityId then { b with replyToId := r.activityId } else b
  ({ h with activities := h.activities.set aAddr a2 }, aAddr)

/-- Helper lemma: a heap shallow copy only appends to the account store
and leaves the activity store untouched. -/
theorem shallowCopyH_ext (h : Heap) (x : Option Nat) :
    (∃ ext, (shallowCopyH h x).1.accounts = h.accounts ++ ext)
    ∧ (shallowCopyH h x).1.activities = h.activities := by
  cases x with
  | none => exact ⟨⟨[], by simp [shallowCopyH]⟩, rfl⟩
  | some addr =>
    cases hl : h.accounts[addr]? with
    | none => refine ⟨⟨[], ?_⟩, ?_⟩ <;> simp [shallowCopyH, hl]
    | some obj => refine ⟨⟨[obj], ?_⟩, ?_⟩ <;> simp [shallowCopyH, hl]

/-- Helper lemma: a heap shallow copy preserves every existing account
cell. -/
theorem shallowCopyH_get_lt (h : Heap) (x : Option Nat) (i : Nat)
    (hi : i < h.accounts.length) :
    (shallowCopyH h x).1.accounts[i]? = h.accounts[i]? := by
  obtain ⟨⟨ext, hext⟩, -⟩ := shallowCopyH_ext h x
  rw [hext]
  exact List.getElem?_append_left hi

/-- Helper lemma: a heap shallow copy never shrinks the account store. -/
theorem shallowCopyH_len (h : Heap) (x : Option Nat) :
    h.accounts.length ≤ (shallowCopyH h x).1.accounts.length := by
  obtain ⟨⟨ext, hext⟩, -⟩ := shallowCopyH_ext h x
  rw [hext]; simp

/-- Helper lemma: shallow-copying a valid address allocates the copied
object at the end of the store and returns that fresh address. -/
theorem shallowCopyH_fresh (h : Heap) (addr : Nat) (obj : AccountObj)
    (hl : h.accounts[addr]? = some obj) :
    shallowCopyH h (some addr)
      = ({ h with accounts := h.accounts ++ [obj] }, some h.accounts.length) := by
  simp [shallowCopyH, hl]

/-- Concrete heap for the mutation counterexample: three account objects
and one activity pointing at them. -/
def hCex : Heap :=
  { accounts := [⟨some "userA", none⟩, ⟨some "botB", none⟩, ⟨some "conv1", none⟩]
    activities := [⟨some 0, some 1, some 2, some "id1", none, some "test", some "url"⟩] }

/-- Concrete reference for the mutation counterexample. -/
def rCex : RefObj := ⟨some "aid", some 0, some 1, some 2, some "newChannel", some "newUrl"⟩

/-- C5 counterexample: `applyConversationReference` does NOT leave the
input activity unmodified: applying a reference to the activity object at
address 0 changes the cell stored at that address (the source assigns the
reference's fields into the given activity and returns the same object). -/
theorem applyConversationReference_mutates_input_cex :
    (applyConversationReferenceH hCex 0 rCex false).1.activities[0]?
      ≠ hCex.activities[0]? := by
  decide

/-- C5 amended: `applyConversationReference` never touches the account
store, so the reference and every object it points to are unchanged, it
returns the very activity object it was given, and it writes no activity
cell other than its argument; `getConversationReference` leaves the
activity store and every pre-existing account cell unchanged and returns
`user` / `bot` / `conversation` fields that are defensive copies: fresh
addresses (not aliased to any pre-existing object, in particular not to
the source activity's fields) holding the same contents; however, contrary
to the claim, the input activity itself IS mutated in place by apply (see
the counterexample). -/
theorem conversationReference_frame_amended :
    (∀ (h : Heap) (a : Nat) (r : RefObj) (inc : Bool),
        (applyConversationReferenceH h a r inc).1.accounts = h.accounts
        ∧ (applyConversationReferenceH h a r inc).2 = a
        ∧ ∀ b, b ≠ a →
            (applyConversationReferenceH h a r inc).1.activities[b]? = h.activities[b]?)
    ∧ (∀ (h : Heap) (a : Nat),
        (getConversationReferenceH h a).1.activities = h.activities
        ∧ ∀ i, i < h.accounts.length →
            (getConversationReferenceH h a).1.accounts[i]? = h.accounts[i]?)
    ∧ (∀ (h : Heap) (a fa : Nat),
        (heapActivityAt h a).«from» = some fa → fa < h.accounts.length →
        ∃ u, (getConversationReferenceH h a).2.user = some u
          ∧ h.accounts.length ≤ u
          ∧ (getConversationReferenceH h a).1.accounts[u]? = h.accounts[fa]?)
    ∧ (∀ (h : Heap) (a fb : Nat),
        (heapActivityAt h a).recipient = some fb → fb < h.accounts.length →
        ∃ u, (getConversationReferenceH h a).2.bot = some u
          ∧ h.accounts.length ≤ u
          ∧ (getConversationReferenceH h a).1.accounts[u]? = h.accounts[fb]?)
    ∧ (∀ (h : Heap) (a fc : Nat),
        (heapActivityAt h a).conversation = some fc → fc < h.accounts.length →
        ∃ u, (getConversationReferenceH h a).2.conversation = some u
          ∧ h.accounts.length ≤ u
          ∧ (getConversationReferenceH h a).1.accounts[u]? = h.accounts[fc]?) := by
  refine ⟨?_, ?_, ?_, ?_, ?_⟩
  · intro h a r inc
    refine ⟨rfl, rfl, ?_⟩
    intro b hb
    show (h.activities.set a _)[b]? = h.activities[b]?
    exact List.getElem?_set_ne (fun hab : a = b => hb hab.symm)
  · intro h a
    constructor
    · show (shallowCopyH (shallowCopyH (shallowCopyH h _).1 _).1 _).1.activities = h.activities
      exact ((shallowCopyH_ext _ _).2.trans (shallowCopyH_ext _ _).2).trans
        (shallowCopyH_ext _ _).2
    · intro i hi
      show (shallowCopyH (shallowCopyH (shallowCopyH h _).1 _).1 _).1.accounts[i]? = _
      rw [shallowCopyH_get_lt, shallowCopyH_get_lt, shallowCopyH_get_lt h _ i hi]
      · exact lt_of_lt_of_le hi (shallowCopyH_len _ _)
      · exact lt_of_lt_of_le hi
          (le_trans (shallowCopyH_len _ _) (shallowCopyH_len _ _))
  · intro h a fa hfrom hlt
    obtain ⟨obj, hobj⟩ : ∃ o, h.accounts[fa]? = some o :=
      ⟨_, List.getElem?_eq_getElem hlt⟩
    have hc1 : shallowCopyH h (heapActivityAt h a).«from»
        = ({ h with accounts := h.accounts ++ [obj] }, some h.accounts.length) := by
      rw [hfrom]; exact shallowCopyH_fresh h fa obj hobj
    refine ⟨h.accounts.length, ?_, le_refl _, ?_⟩
    · show (shallowCopyH h (heapActivityAt h a).«from»).2 = some h.accounts.length
      rw [hc1]
    · show (shallowCopyH (shallowCopyH (shallowCopyH h _).1 _).1 _).1.accounts[h.accounts.length]?
        = h.accounts[fa]?
      rw [hc1, shallowCopyH_get_lt, shallowCopyH_get_lt]
      · show (h.accounts ++ [obj])[h.accounts.length]? = h.accounts[fa]?
        rw [List.getElem?_concat_length]
        exact hobj.symm
      · simp
      · exact lt_of_lt_of_le (by simp) (shallowCopyH_len _ _)
  · intro h a fb hrecip hlt
    obtain ⟨obj, hobj⟩ : ∃ o, h.accounts[fb]? = some o :=
      ⟨_, List.getElem?_eq_getElem hlt⟩
    have hfb : (shallowCopyH h (heapActivityAt h a).«from»).1.accounts[fb]? = some obj :=
      (shallowCopyH_get_lt h _ fb hlt).trans hobj
    have hc2 : shallowCopyH (shallowCopyH h (heapActivityAt h a).«from»).1
          (heapActivityAt h a).recipient
        = ({ (shallowCopyH h (heapActivityAt h a).«from»).1 with
              accounts := (shallowCopyH h (heapActivityAt h a).«from»).1.accounts ++ [obj] },
            some (shallowCopyH h (heapActivityAt h a).«from»).1.accounts.length) := by
      rw [hrecip]; exact shallowCopyH_fresh _ fb obj hfb
    refine ⟨(shallowCopyH h (heapActivityAt h a).«from»).1.accounts.length, ?_, ?_, ?_⟩
    · show (shallowCopyH (shallowCopyH h _).1 _).2
        = some (shallowCopyH h (heapActivityAt h a).«from»).1.accounts.length
      rw [hc2]
    · exact shallowCopyH_len _ _
    · show (shallowCopyH (shallowCopyH (shallowCopyH h _).1 _).1 _).1.accounts[
          (shallowCopyH h (heapActivityAt h a).«from»).1.accounts.length]?
        = h.accounts[fb]?
      rw [hc2, shallowCopyH_get_lt]
      · show ((shallowCopyH h _).1.accounts ++ [obj])[
            (shallowCopyH h (heapActivityAt h a).«from»).1.accounts.length]? = h.accounts[fb]?
        rw [List.getElem?_concat_length]
        exact hobj.symm
      · simp
  · intro h a fc hconv hlt
    obtain ⟨obj, hobj⟩ : ∃ o, h.accounts[fc]? = some o :=
      ⟨_, List.getElem?_eq_getElem hlt⟩
    have hfc : (shallowCopyH (shallowCopyH h (heapActivityAt h a).«from»).1
          (heapActivityAt h a).recipient).1.accounts[fc]? = some obj := by
      rw [shallowCopyH_get_lt, shallowCopyH_get_lt h _ fc hlt]
      · exact hobj
      · exact lt_of_lt_of_le hlt (shallowCopyH_len _ _)
    have hc3 : shallowCopyH (shallowCopyH (shallowCopyH h (heapActivityAt h a).«from»).1
            (heapActivityAt h a).recipient).1 (heapActivityAt h a).conversation
        = ({ (shallowCopyH (shallowCopyH h (heapActivityAt h a).«from»).1
                (heapActivityAt h a).recipient).1 with
              accounts := (shallowCopyH (shallowCopyH h (heapActivityAt h a).«from»).1
                (heapActivityAt h a).recipient).1.accounts ++ [obj] },
            some (shallowCopyH (shallowCopyH h (heapActivityAt h a).«from»).1
                (heapActivityAt h a).recipient).1.accounts.length) := by
      rw [hconv]; exact shallowCopyH_fresh _ fc obj hfc
    refine ⟨(shallowCopyH (shallowCopyH h (heapActivityAt h a).«from»).1
        (heapActivityAt h a).recipient).1.accounts.length, ?_, ?_, ?_⟩
    · show (shallowCopyH (shallowCopyH (shallowCopyH h _).1 _).1 _).2 = _
      rw [hc3]
    · exact le_trans (shallowCopyH_len _ _) (shallowCopyH_len _ _)
    · show (shallowCopyH (shallowCopyH (shallowCopyH h _).1 _).1 _).1.accounts[
          (shallowCopyH (shallowCopyH h (heapActivityAt h a).«from»).1
            (heapActivityAt h a).recipient).1.accounts.length]? = h.accounts[fc]?
      rw [hc3]
      show ((shallowCopyH (shallowCopyH h _).1 _).1.accounts ++ [obj])[
          (shallowCopyH (shallowCopyH h (heapActivityAt h a).«from»).1
            (heapActivityAt h a).recipient).1.accounts.length]? = h.accounts[fc]?
      rw [List.getElem?_concat_length]
      exact hobj.symm

/-- C5 witness: the frame theorem applied to the concrete heap `hCex`:
applying `rCex` to the activity at address 0 leaves all three account
objects unchanged, and extracting a reference from that activity returns a
`user` copy at a fresh address holding the same contents as account 0. -/
theorem conversationReference_frame_check :
    (applyConversationReferenceH hCex 0 rCex false).1.accounts = hCex.accounts
    ∧ ∃ u, (getConversationReferenceH hCex 0).2.user = some u
        ∧ hCex.accounts.length ≤ u
        ∧ (getConversationReferenceH hCex 0).1.accounts[u]? = hCex.accounts[0]? := by
  exact ⟨(conversationReference_frame_amended.1 hCex 0 rCex false).1,
    conversationReference_frame_amended.2.2.1 hCex 0 0 rfl (by decide)⟩

/-- Settings of an OAuthPrompt (oauthPrompt.ts). -/
structure OAuthPromptSettings where
  connectionName : String
  title : String
  text : Option String
deriving DecidableEq

/-- Error taxonomy of the OAuth prompt: the unsupported-adapter error
thrown when the adapter lacks `getUserToken`, and the malformed-prompt
error thrown when a supplied prompt activity lacks an OAuthCard. -/
inductive PromptError where
  | unsupportedAdapter
  | malformedPrompt
deriving DecidableEq

/-- The adapter capability surface the OAuth prompt probes and uses:
whether `getUserToken` exists on the adapter (the `in` check of the
source), and the token exchange itself (connection name, optional magic
code). -/
structure Adapter where
  hasGetUserToken : Bool
  getUserToken : String → Option String → Option TokenResponse

/-- `isTokenResponseEvent` (oauthPrompt.ts lines 234-238). -/
def isTokenResponseEvent (a : Activity) : Bool :=
  a.type == some "event" && a.name == some "tokens/response"

/-- A window of six leading characters, accepted when all six are digits
(the body of the regular expression `(\d-six)` at one start position). -/
def sixDigitWindow : List Char → Option (List Char)
  | c0 :: c1 :: c2 :: c3 :: c4 :: c5 :: _ =>
    if c0.isDigit && c1.isDigit && c2.isDigit && c3.isDigit && c4.isDigit && c5.isDigit then
      some [c0, c1, c2, c3, c4, c5]
    else none
  | _ => none

/-- Leftmost-first scan of the six-digit regular expression: try each
start position from the left and take the first six-digit window. -/
def findSixDigitList : List Char → Option (List Char)
  | [] => none
  | c :: rest =>
    match sixDigitWindow (c :: rest) with
    | some m => some m
    | none => findSixDigitList rest

/-- Semantics of `(\d-six).exec(text)`: the leftmost run of six
consecutive digits, or nothing. -/
def findSixDigitRun (s : String) : Option String :=
  (findSixDigitList s.data).map fun l => ⟨l⟩

/-- JavaScript string coercion applied by `exec` to its argument: an
`undefined` text coerces to the string "undefined". -/
def regexInput : Option String → String
  | some t => t
  | none => "undefined"

/-- `createOAuthPrompt(...).recognize` (oauthPrompt.ts lines 191-211):
fails when the adapter lacks `getUserToken`; on a `tokens/response` event
takes the activity value verbatim; on a message extracts the leftmost
six-digit run and exchanges it through `adapter.getUserToken` with the
configured connection name, returning no value when there is no six-digit
run or the activity is of another type; the result is passed through the
validator when one was supplied. -/
def OAuthPrompt.recognize (settings : OAuthPromptSettings)
    (validator : Option (Option TokenResponse → Option TokenResponse))
    (adapter : Adapter) (a : Activity) : Except PromptError (Option TokenResponse) :=
  if !adapter.hasGetUserToken then .error .unsupportedAdapter
  else
    let value :=
      if isTokenResponseEvent a then a.value
      else if a.type == some "message" then
        match findSixDigitRun (regexInput a.text) with
        | some code => adapter.getUserToken settings.connectionName (some code)
        | none => none
      else none
    .ok (match validator with
      | some v => v value
      | none => value)

/-- The OAuthCard content type (`CardFactory.contentTypes.oauthCard`). -/
def contentTypeOAuthCard : String := "application/vnd.microsoft.card.oauth"

/-- Modelled from the spec: `CardFactory.oauthCard` of botbuilder-core is
not under src/; per the spec the synthesized prompt carries a sign-in
affordance, modelled as an attachment of the OAuthCard content type
holding the connection name, title and text. -/
def oauthCard (connectionName title : String) (text : Option String) : Attachment :=
  { contentType := contentTypeOAuthCard
    cardConnectionName := some connectionName
    cardTitle := some title
    cardText := text }

/-- Modelled from the spec: `MessageFactory.attachment` of botbuilder-core
is not under src/; it wraps an attachment in a message activity. -/
def messageWithAttachment (att : Attachment) : Activity :=
  { emptyActivity with type := some "message", attachments := some [att] }

/-- Modelled from the spec: `sendPrompt` (botbuilder-prompts internal
helper, not under src/) delivers the prompt activity through the turn
context; it is modelled by the list of activities that get sent. -/
def sendPrompt (p : Activity) : List Activity := [p]

/-- `createOAuthPrompt(...).prompt` (oauthPrompt.ts lines 166-190): fails
with the unsupported-adapter error when the adapter lacks `getUserToken`;
with no supplied prompt it synthesizes a message carrying the OAuthCard
and sends it; a supplied prompt must have an attachments array containing
an OAuthCard attachment, otherwise the call fails with a malformed-prompt
error; an error result means no activity was sent (the source throws
before reaching `sendPrompt`). -/
def OAuthPrompt.prompt (settings : OAuthPromptSettings) (adapter : Adapter)
    (p? : Option Activity) : Except PromptError (List Activity) :=
  if !adapter.hasGetUserToken then .error .unsupportedAdapter
  else
    match p? with
    | none =>
      .ok (sendPrompt (messageWithAttachment
        (oauthCard settings.connectionName settings.title settings.text)))
    | some p =>
      match p.attachments with
      | none => .error .malformedPrompt
      | some atts =>
        if (atts.filter fun att => att.contentType == contentTypeOAuthCard).length == 0 then
          .error .malformedPrompt
        else .ok (sendPrompt p)

/-- C6: on an adapter supporting `getUserToken` and a message activity,
`recognize` takes the magic-code path: when the leftmost-six-digit scan of
the text finds a code, the result is exactly the token returned by the
adapter's `getUserToken` for the configured connection name and that code;
the message "Your code is 482913" yields the code "482913"; and when the
text has no six-digit run the result is absent for EVERY adapter exchange
function, so the exchange is never consulted. -/
theorem oauth_recognize_magic_code :
    (∀ (settings : OAuthPromptSettings) (adapter : Adapter) (a : Activity),
        adapter.hasGetUserToken = true → a.type = some "message" →
        (∀ code, findSixDigitRun (regexInput a.text) = some code →
          OAuthPrompt.recognize settings none adapter a
            = .ok (adapter.getUserToken settings.connectionName (some code)))
        ∧ (findSixDigitRun (regexInput a.text) = none →
            OAuthPrompt.recognize settings none adapter a = .ok none))
    ∧ findSixDigitRun "Your code is 482913" = some "482913" := by
  refine ⟨?_, by decide⟩
  intro settings adapter a hcap htype
  have hev : isTokenResponseEvent a = false := by
    simp [isTokenResponseEvent, htype]
  constructor
  · intro code hcode
    simp [OAuthPrompt.recognize, hcap, hev, htype, hcode]
  · intro hnone
    simp [OAuthPrompt.recognize, hcap, hev, htype, hnone]

/-- C6 witness: the theorem applied to a concrete capable adapter and the
concrete message "Your code is 482913": the recognized value is the token
the exchange returns for code "482913". -/
theorem oauth_recognize_magic_code_check :
    OAuthPrompt.recognize ⟨"GitConnection", "Login", none⟩ none
        ⟨true, fun conn _ => some ⟨conn, "tok"⟩⟩
        { emptyActivity with type := some "message", text := some "Your code is 482913" }
      = .ok (some ⟨"GitConnection", "tok"⟩) := by
  exact ((oauth_recognize_magic_code.1 ⟨"GitConnection", "Login", none⟩
      ⟨true, fun conn _ => some ⟨conn, "tok"⟩⟩
      { emptyActivity with type := some "message", text := some "Your code is 482913" }
      rfl rfl).1 "482913" (by decide)).trans rfl

/-- C7: `OAuthPrompt.prompt` fails with the unsupported-adapter error when
the adapter lacks `getUserToken` (and sends nothing: an error result
carries no sent activity); when a prompt activity is supplied it fails
with the malformed-prompt error (again sending nothing) both when it has
no attachments array and when no attachment carries the OAuthCard content
type; when no prompt activity is supplied, a message containing the
sign-in card is synthesized and sent. -/
theorem oauth_prompt_validation :
    (∀ (settings : OAuthPromptSettings) (adapter : Adapter) (p? : Option Activity),
        adapter.hasGetUserToken = false →
        OAuthPrompt.prompt settings adapter p? = .error .unsupportedAdapter)
    ∧ (∀ (settings : OAuthPromptSettings) (adapter : Adapter) (p : Activity),
        adapter.hasGetUserToken = true → p.attachments = none →
        OAuthPrompt.prompt settings adapter (some p) = .error .malformedPrompt)
    ∧ (∀ (settings : OAuthPromptSettings) (adapter : Adapter) (p : Activity)
        (atts : List Attachment),
        adapter.hasGetUserToken = true → p.attachments = some atts →
        (∀ att ∈ atts, att.contentType ≠ contentTypeOAuthCard) →
        OAuthPrompt.prompt settings adapter (some p) = .error .malformedPrompt)
    ∧ (∀ (settings : OAuthPromptSettings) (adapter : Adapter),
        adapter.hasGetUserToken = true →
        OAuthPrompt.prompt settings adapter none
          = .ok [messageWithAttachment
              (oauthCard settings.connectionName settings.title settings.text)]
        ∧ ∃ att ∈ (messageWithAttachment
              (oauthCard settings.connectionName settings.title
                settings.text)).attachments.getD [],
            att.contentType = contentTypeOAuthCard) := by
  refine ⟨?_, ?_, ?_, ?_⟩
  · intro settings adapter p? hcap
    simp [OAuthPrompt.prompt, hcap]
  · intro settings adapter p hcap hatts
    simp [OAuthPrompt.prompt, hcap, hatts]
  · intro settings adapter p atts hcap hatts hnone
    have hfilter : (atts.filter fun att => att.contentType == contentTypeOAuthCard) = [] := by
      rw [List.filter_eq_nil_iff]
      intro att hmem
      simpa using hnone att hmem
    simp [OAuthPrompt.prompt, hcap, hatts, hfilter]
  · intro settings adapter hcap
    refine ⟨by simp [OAuthPrompt.prompt, hcap, sendPrompt], ?_⟩
    exact ⟨oauthCard settings.connectionName settings.title settings.text,
      by simp [messageWithAttachment], rfl⟩

/-- C7 witness: the theorem applied to concrete adapters and prompts: an
adapter without `getUserToken` is rejected, a supplied prompt without an
OAuthCard attachment is rejected, and with no supplied prompt the
synthesized sign-in message is sent. -/
theorem oauth_prompt_validation_check :
    OAuthPrompt.prompt ⟨"conn", "Login", none⟩ ⟨false, fun _ _ => none⟩ none
        = .error .unsupportedAdapter
    ∧ OAuthPrompt.prompt ⟨"conn", "Login", none⟩ ⟨true, fun _ _ => none⟩
        (some { emptyActivity with attachments := some [⟨"text/plain", none, none, none⟩] })
        = .error .malformedPrompt
    ∧ OAuthPrompt.prompt ⟨"conn", "Login", none⟩ ⟨true, fun _ _ => none⟩ none
        = .ok [messageWithAttachment (oauthCard "conn" "Login" none)] := by
  refine ⟨oauth_prompt_validation.1 ⟨"conn", "Login", none⟩ ⟨false, fun _ _ => none⟩ none rfl,
    oauth_prompt_validation.2.2.1 ⟨"conn", "Login", none⟩ ⟨true, fun _ _ => none⟩
      { emptyActivity with attachments := some [⟨"text/plain", none, none, none⟩] }
      [⟨"text/plain", none, none, none⟩] rfl rfl ?_,
    (oauth_prompt_validation.2.2.2 ⟨"conn", "Login", none⟩ ⟨true, fun _ _ => none⟩ rfl).1⟩
  intro att hmem
  simp at hmem
  subst hmem
  decide

/-- The datetime result entry of a recognizer resolution (the shape the
datetime prompt returns). -/
structure FoundDatetime where
  timex : String
  dtType : String
  dtValue : String
deriving DecidableEq

/-- The resolution of a recognizer model result. -/
structure DateTimeResolution where
  values : List FoundDatetime
deriving DecidableEq

/-- A ranked candidate result of the external date/time recognizer; only
the `resolution` field (possibly absent) is read by the prompt. -/
structure DateTimeModelResult where
  resolution : Option DateTimeResolution
deriving DecidableEq

/-- `(context.activity || empty).text` of datetimePrompt.ts line 64-65. -/
def requestText (a? : Option Activity) : Option String :=
  match a? with
  | some a => a.text
  | none => none

/-- `(context.activity || empty).locale` of datetimePrompt.ts line 64,66. -/
def requestLocale (a? : Option Activity) : Option String :=
  match a? with
  | some a => a.locale
  | none => none

/-- The extraction of datetimePrompt.ts line 68: the resolution values of
the first candidate when the result list is non-empty and the first
candidate has a resolution, absent otherwise. -/
def firstResolvedValues (results : List DateTimeModelResult) : Option (List FoundDatetime) :=
  match results with
  | [] => none
  | r :: _ =>
    match r.resolution with
    | some res => some res.values
    | none => none

/-- `createDatetimePrompt(...).recognize` (datetimePrompt.ts lines 63-70):
runs the external recognizer (passed as a collaborator function) on the
activity text (empty string when not truthy) with the activity locale,
else the configured default locale, else "en-us" (JavaScript truthiness
chain), takes the first candidate's resolution values, and passes the
result through the validator when one was supplied.  It is total: a
non-matching text yields an absent value, never an error. -/
def datetimeRecognize (recognizeDateTime : String → String → List DateTimeModelResult)
    (validator : Option (Option (List FoundDatetime) → Option (List FoundDatetime)))
    (defaultLocale : Option String) (a? : Option Activity) : Option (List FoundDatetime) :=
  let utterance := jsStringOr (requestText a?) ""
  let locale := jsStringOr (requestLocale a?) (jsStringOr defaultLocale "en-us")
  let values := firstResolvedValues (recognizeDateTime utterance locale)
  match validator with
  | some v => v values
  | none => values

/-- C8: `DatetimePrompt.recognize` runs the recognizer on the activity
text (empty string when absent) with the activity locale when truthy,
else the configured default locale when truthy, else the fixed fallback
"en-us"; and it returns the first candidate's resolution values when the
result list is non-empty and the first candidate has a resolution, and an
absent value otherwise — always a value, never an error (the embedding is
a total function into `Option`). -/
theorem datetime_recognize_spec (rec : String → String → List DateTimeModelResult)
    (dl : Option String) (a? : Option Activity) :
    datetimeRecognize rec none dl a?
      = firstResolvedValues (rec (jsStringOr (requestText a?) "")
          (jsStringOr (requestLocale a?) (jsStringOr dl "en-us")))
    ∧ (a? = none ∨ (a?.getD emptyActivity).text = none →
        datetimeRecognize rec none dl a?
          = firstResolvedValues (rec ""
              (jsStringOr (requestLocale a?) (jsStringOr dl "en-us"))))
    ∧ (∀ l, requestLocale a? = some l → l ≠ "" →
        datetimeRecognize rec none dl a?
          = firstResolvedValues (rec (jsStringOr (requestText a?) "") l))
    ∧ (jsTruthy (requestLocale a?) = false → ∀ d, dl = some d → d ≠ "" →
        datetimeRecognize rec none dl a?
          = firstResolvedValues (rec (jsStringOr (requestText a?) "") d))
    ∧ (jsTruthy (requestLocale a?) = false → jsTruthy dl = false →
        datetimeRecognize rec none dl a?
          = firstResolvedValues (rec (jsStringOr (requestText a?) "") "en-us"))
    ∧ (∀ u l, rec u l = [] → firstResolvedValues (rec u l) = none)
    ∧ (∀ u l first rest res, rec u l = first :: rest → first.resolution = some res →
        firstResolvedValues (rec u l) = some res.values)
    ∧ (∀ u l first rest, rec u l = first :: rest → first.resolution = none →
        firstResolvedValues (rec u l) = none) := by
  refine ⟨rfl, ?_, ?_, ?_, ?_, ?_, ?_, ?_⟩
  · rintro (hn | ht)
    · subst hn; rfl
    · cases a? with
      | none => rfl
      | some a =>
        simp only [Option.getD] at ht
        simp [datetimeRecognize, requestText, ht, jsStringOr]
  · intro l hl hne
    simp [datetimeRecognize, hl, jsStringOr, hne]
  · intro hfalse d hd hne
    cases hl : requestLocale a? with
    | none => simp [datetimeRecognize, hl, hd, jsStringOr, hne]
    | some s =>
      rw [hl] at hfalse
      have hs : s = "" := by simpa [jsTruthy] using hfalse
      subst hs
      simp [datetimeRecognize, hl, hd, jsStringOr, hne]
  · intro hfalse hdl
    have hdl' : jsStringOr dl "en-us" = "en-us" := by
      cases dl with
      | none => rfl
      | some s =>
        have hs : s = "" := by simpa [jsTruthy] using hdl
        subst hs; rfl
    have hloc : jsStringOr (requestLocale a?) (jsStringOr dl "en-us") = "en-us" := by
      cases hl : requestLocale a? with
      | none => rw [hdl']; rfl
      | some s =>
        rw [hl] at hfalse
        have hs : s = "" := by simpa [jsTruthy] using hfalse
        subst hs
        rw [hdl']; rfl
    simp only [datetimeRecognize]
    rw [hloc]
  · intro u l h; simp [firstResolvedValues, h]
  · intro u l first rest res h hres; simp [firstResolvedValues, h, hres]
  · intro u l first rest h hres; simp [firstResolvedValues, h, hres]

/-- C8 witness: the theorem applied to a concrete recognizer that matches
"tomorrow at 3pm" under locale "en-us": with no activity locale and no
default locale the fallback locale is used and the first candidate's
resolution values are returned. -/
theorem datetime_recognize_check :
    datetimeRecognize
        (fun u l =>
          if u == "tomorrow at 3pm" && l == "en-us" then
            [⟨some ⟨[⟨"2018-03-21T15", "datetime", "2018-03-21 15:00:00"⟩]⟩⟩]
          else [])
        none none (some { emptyActivity with text := some "tomorrow at 3pm" })
      = some [⟨"2018-03-21T15", "datetime", "2018-03-21 15:00:00"⟩] := by
  exact ((datetime_recognize_spec
      (fun u l =>
        if u == "tomorrow at 3pm" && l == "en-us" then
          [⟨some ⟨[⟨"2018-03-21T15", "datetime", "2018-03-21 15:00:00"⟩]⟩⟩]
        else [])
      none (some { emptyActivity with text := some "tomorrow at 3pm" })).2.2.2.2.1
    rfl rfl).trans rfl

/-- Errors of the blob storage entry checks (blobStorage.js). -/
inductive StorageError where
  | emptyKey
  | missingKeys
deriving DecidableEq

/-- Characters that Node's `querystring.escape` leaves unescaped:
ASCII letters, digits and `- _ . ! ~ * ( )` and the apostrophe. -/
def qsUnreserved (c : Char) : Bool :=
  c.isAlphanum || c = '-' || c = '_' || c = '.' || c = '!' || c = '~' || c = '*'
    || c = Char.ofNat 39 || c = '(' || c = ')'

/-- Uppercase hexadecimal digit of a value below 16. -/
def hexDigitChar (n : Nat) : Char :=
  if n < 10 then Char.ofNat (48 + n) else Char.ofNat (55 + n)

/-- UTF-8 bytes of a character (standard four-range encoder). -/
def utf8BytesOfChar (c : Char) : List Nat :=
  let n := c.toNat
  if n < 128 then [n]
  else if n < 2048 then [192 + n / 64, 128 + n % 64]
  else if n < 65536 then [224 + n / 4096, 128 + (n / 64) % 64, 128 + n % 64]
  else [240 + n / 262144, 128 + (n / 4096) % 64, 128 + (n / 64) % 64, 128 + n % 64]

/-- Percent-encoding of one byte. -/
def percentEncodeByte (b : Nat) : List Char :=
  ['%', hexDigitChar (b / 16), hexDigitChar (b % 16)]

/-- Node's `querystring.escape`: unreserved characters pass through,
every other character is UTF-8 percent-encoded. -/
def qsEscape (s : String) : String :=
  ⟨s.data.foldr
    (fun c acc =>
      (if qsUnreserved c then [c] else (utf8BytesOfChar c).foldr
        (fun b l => percentEncodeByte b ++ l) []) ++ acc)
    []⟩

/-- JavaScript `key.split(sep)` on a single separator character
(structurally recursive over the character list; agrees with the
JavaScript code-unit split on these inputs). -/
def splitOnChar (sep : Char) : List Char → List (List Char)
  | [] => [[]]
  | c :: rest =>
    let r := splitOnChar sep rest
    if c = sep then [] :: r
    else
      match r with
      | s :: ss => (c :: s) :: ss
      | [] => [[c]]

/-- `BlobStorage.sanitizeKey` (blobStorage.js lines 139-149).  The source
does `segments.splice(0)` — `splice` with only a start argument of 0
removes EVERY element and returns them all, so `base` is the first
segment and the `segments` array is left empty; the reduce that was meant
to re-join the path segments therefore runs over an empty array and
returns `base` unchanged, and everything after the first slash is
dropped. -/
def sanitizeKey (key : String) : Except StorageError String :=
  if key.data.length < 1 then .error .emptyKey
  else
    let segments := (splitOnChar '/' key.data).map fun cs => (⟨cs⟩ : String)
    let removed := segments
    let base := removed.headD ""
    let segmentsAfterSplice : List String := []
    let validKey := (segmentsAfterSplice.foldl
      (fun (acc : String × Nat) curr =>
        (if acc.2 < 255 then acc.1 ++ "/" ++ curr else acc.1 ++ curr, acc.2 + 1))
      (base, 0)).1
    .ok ⟨(qsEscape validKey).data.take 1024⟩

/-- The JSON document stored per blob, as seen after a read (the read
path copies the blob metadata etag into `document.eTag`). -/
structure StoreDoc where
  eTag : String
  content : String
deriving DecidableEq

/-- A parsed blob: the logical key it was written under and its document. -/
structure StoredItem where
  realId : String
  document : StoreDoc
deriving DecidableEq

/-- `BlobStorage.read` (blobStorage.js lines 53-81).  `keys` is `none` for
a null argument (which throws) and `some` of the list otherwise; `fetch`
is the per-key metadata-plus-text collaborator, returning `none` on the
error paths (which the source maps to `resolve(null)`).  The outer promise
only resolves inside `if (items.length > 0)` and has no reject path, so
the returned `Option` is `none` exactly when the promise never settles,
and `some` of the assembled store items when it resolves. -/
def blobRead (keys : Option (List String)) (fetch : String → Option StoredItem) :
    Except StorageError (Option (List (String × StoreDoc))) :=
  match keys with
  | none => .error .missingKeys
  | some ks =>
    let sanitizedKeys := (ks.filter fun k => !(k == "")).map fun k =>
      match sanitizeKey k with
      | .ok v => v
      | .error _ => ""
    let items := sanitizedKeys.map fetch
    if items.length > 0 then
      .ok (some ((items.filterMap id).map fun it => (it.realId, it.document)))
    else
      .ok none

/-- C9: the sanitize step is NOT injective: the distinct logical keys
"a/b" and "a/c" are both sanitized to the blob name "a", because
`splice(0)` empties the segment array and every path segment after the
first slash is discarded (the dead reduce and its 255-segment comment
show the intended join was never executed). -/
theorem sanitizeKey_collision :
    sanitizeKey "a/b" = .ok "a" ∧ sanitizeKey "a/c" = .ok "a"
      ∧ ("a/b" : String) ≠ "a/c" := by
  exact ⟨rfl, rfl, by decide⟩

/-- C10: for the empty (but non-null) key array, `BlobStorage.read`
returns a promise that never settles: the empty array passes the null
check, `Promise.all` of no inner reads resolves with an empty items list,
the `items.length > 0` guard fails, the outer resolve is never invoked
and there is no reject path — for every fetch collaborator. -/
theorem blobStorage_read_empty_never_settles (fetch : String → Option StoredItem) :
    blobRead (some []) fetch = .ok none := rfl
